import Mathlib

/-!
# Verification of the docsearch dispatch core and mock API

This file shallowly embeds, in Lean 4:

* the mock HTTP API server of `test/integration/test_mock_api.py`
  (`MockAPIHandler.do_GET`, `do_POST`, `do_DELETE`), translated directly
  from the Python source; and
* the unified dispatch core (envelopes, registry, JSON-RPC dispatch,
  batch fan-out, protocol adapters) described by the specification.
  The core's implementation is not part of this repository's sources
  (only its integration tests are), so those definitions are modelled
  from the specification's words and are marked as such.

JSON values are modelled by an inductive `Json` type; producing a `Json`
value models producing a serialized JSON body (serialization itself is
not modelled).  Python/Rust strings are Lean `String`s; JSON numbers are
rationals.
-/

/-- A JSON value.  Objects are ordered field lists, as emitted by the code. -/
inductive Json where
  | null
  | bool (b : Bool)
  | num (q : Rat)
  | str (s : String)
  | arr (elems : List Json)
  | obj (fields : List (String × Json))

/-- Field lookup in a JSON object: the first binding of key `k`, if the value
is an object that binds `k`.  Mirrors Python `dict` access on decoded JSON. -/
def Json.lookup (j : Json) (k : String) : Option Json :=
  match j with
  | .obj fields => fieldLookup fields
  | _ => none
where
  fieldLookup : List (String × Json) → Option Json
    | [] => none
    | (k', v) :: rest => if k' = k then some v else fieldLookup rest

/-- `true` iff `j` is an object with a binding for key `k`. -/
def Json.hasKey (j : Json) (k : String) : Bool :=
  (j.lookup k).isSome

/-- `charLeads pre s`: the char list `pre` is an initial segment of `s`.
Embeds Python's `str.startswith` (over the decoded characters). -/
def charLeads : List Char → List Char → Bool
  | [], _ => true
  | _ :: _, [] => false
  | a :: as, b :: bs => a == b && charLeads as bs

/-- String-level `startswith`: `leads pre s` iff `s` starts with `pre`. -/
def leads (pre s : String) : Bool := charLeads pre.data s.data

/-- Split a char list on a separator character, Python `str.split(sep)` style:
`splitChar '/' "a/b"` gives `["a", "b"]`, and an empty input gives `[[]]`. -/
def splitChar (c : Char) : List Char → List (List Char)
  | [] => [[]]
  | a :: as =>
    let rest := splitChar c as
    if a == c then [] :: rest
    else
      match rest with
      | r :: rs => (a :: r) :: rs
      | [] => [[a]]

/-- Characters allowed in a URL scheme: Python's `scheme_chars` (ASCII
letters and digits plus `+`, `-`, `.`). -/
def isSchemeChar (c : Char) : Bool :=
  c.isAlpha || c.isDigit || c == '+' || c == '-' || c == '.'

/-- Split a char list at the first occurrence of `c` (Python
`s.find(c)` plus slicing); `none` when `c` does not occur. -/
def splitFirst (c : Char) : List Char → Option (List Char × List Char)
  | [] => none
  | a :: as =>
    if a == c then some ([], as)
    else
      match splitFirst c as with
      | some (pre, post) => some (a :: pre, post)
      | none => none

/-- `urlsplit`'s input sanitization (CPython ≥ 3.11 / backports): strip
leading C0-control-or-space characters, then remove every tab, CR and LF. -/
def sanitizeUrl (s : List Char) : List Char :=
  (s.dropWhile (fun c => decide (c.toNat ≤ 32))).filter
    (fun c => c != '\t' && c != '\r' && c != '\n')

/-- `urlsplit`'s scheme detection: a leading `name:` is a scheme when the
first character is an ASCII letter and every character before the first
`:` is a scheme character; the scheme is lowercased.  Returns
`(scheme, remainder)`, with an empty scheme when none is found. -/
def schemeSplit (s : List Char) : List Char × List Char :=
  match splitFirst ':' s with
  | some (pre, post) =>
      match pre with
      | [] => ([], s)
      | c :: _ =>
          if c.isAlpha && pre.all isSchemeChar then
            (pre.map Char.toLower, post)
          else ([], s)
  | none => ([], s)

/-- `_splitnetloc`: the netloc runs to the first `/`, `?` or `#`; the
remainder starts at that delimiter.  (Called on the characters after the
leading `//`.) -/
def splitNetloc : List Char → List Char × List Char
  | [] => ([], [])
  | a :: as =>
      if a == '/' || a == '?' || a == '#' then ([], a :: as)
      else
        let (n, r) := splitNetloc as
        (a :: n, r)

/-- Python `urllib.parse.uses_params`: the schemes (including the empty
scheme) whose paths get `;params` split off. -/
def usesParamsSchemes : List String :=
  ["", "ftp", "hdl", "prospero", "http", "imap", "https", "shttp", "rtsp",
   "rtsps", "rtspu", "sip", "sips", "mms", "sftp", "tel"]

/-- Whether a (lowercased) scheme is in `uses_params`. -/
def usesParams (scheme : List Char) : Bool :=
  (usesParamsSchemes.map String.data).contains scheme

/-- `_splitparams` applied to a path containing `;`: drop everything from
the first `;` of the segment after the last `/` (or of the whole path when
it has no `/`); a `;` only in earlier segments leaves the path unchanged. -/
def splitParamsPath (p : List Char) : List Char :=
  if p.contains '/' then
    let lastSeg := (splitChar '/' p).getLastD []
    if lastSeg.contains ';' then
      p.take (p.length - lastSeg.length) ++
        lastSeg.takeWhile (fun c => c != ';')
    else p
  else p.takeWhile (fun c => c != ';')

/-- The fields of Python `urlparse(url)` that the mock handlers can
observe. -/
structure UrlParts where
  scheme : List Char
  netloc : List Char
  path : List Char

/-- Python `urlparse(url)` (CPython 3.11 `urllib.parse`, default
`scheme=''`, `allow_fragments=True`), for the fields the handlers use:
sanitize, split a scheme, split a `//netloc`, cut the path at the first
`?` or `#` (fragment and query), and split `;params` off the last path
segment when the scheme uses params.  The IPv6/NFKC validation that can
make `urlsplit` raise inspects only the netloc and changes no field; see
`safeAuthority` for how raising inputs are kept out of the theorems'
scope. -/
def urlparseParts (url : String) : UrlParts :=
  let s := sanitizeUrl url.data
  let (scheme, s1) := schemeSplit s
  let (netloc, s2) :=
    match s1 with
    | '/' :: '/' :: rest => splitNetloc rest
    | _ => ([], s1)
  let p := s2.takeWhile (fun c => c != '?' && c != '#')
  let p2 := if usesParams scheme && p.contains ';' then splitParamsPath p
    else p
  ⟨scheme, netloc, p2⟩

/-- Python `urlparse(url).path`. -/
def urlPath (url : String) : String :=
  String.mk (urlparseParts url).path

/-- A request target whose authority (netloc) is plain ASCII without `[`
or `]`.  On such targets `urlsplit` never raises on any supported CPython
(the bracketed-host IPv6 validation and the non-ASCII NFKC netloc check
are the only raising paths), so the handler always answers; for bracketed
authorities whether the handler raises — and thus answers at all — is
CPython-version-dependent (3.10 does not validate bracketed hosts, 3.11+
does), so those targets are excluded from the theorems below. -/
def safeAuthority (url : String) : Bool :=
  (urlparseParts url).netloc.all
    (fun c => decide (c.toNat < 128) && c != '[' && c != ']')

/-- Python `path.split('/')[-1]`: the segment after the last `/`
(`splitChar` never returns `[]`, so the default is never taken). -/
def lastSegment (path : String) : String :=
  String.mk ((splitChar '/' path.data).getLastD [])

/-- One HTTP response as produced by `MockAPIHandler`: status code, the
`Content-Type` header value, and the JSON body written to the wire.
(The CORS header sent on 200 responses carries no information for the
properties below and is elided.) -/
structure HttpResponse where
  status : Nat
  contentType : String
  body : Json

/-- Body of every unmatched route in `test_mock_api.py`:
`{"error": "Not found"}`. -/
def mockNotFoundBody : Json := .obj [("error", .str "Not found")]

/-- The fixed `/api/status` response body of `MockAPIHandler.do_GET`. -/
def mockStatusBody : Json :=
  .obj [("status", .str "healthy"),
    ("collection", .obj [("name", .str "zero_latency_docs"),
      ("documents", .num 42), ("chunks", .num 156),
      ("vector_dimensions", .num 384),
      ("last_updated", .str "2025-01-20T02:00:00Z")]),
    ("configuration", .obj [("embedding_model", .str "gte-small"),
      ("vector_database", .str "qdrant"),
      ("collection_name", .str "zero_latency_docs")]),
    ("performance", .obj [("avg_search_time_ms", .num 45.7),
      ("total_searches", .num 128), ("uptime_seconds", .num 3600)])]

/-- The fixed `/api/docs` response body of `MockAPIHandler.do_GET`. -/
def mockDocsBody : Json :=
  .obj [("documents", .arr [
      .obj [("id", .str "doc_1"), ("title", .str "Phase 2 Plan"),
        ("path", .str "docs/misc/artefacts/022_phase-2-cli-interface-plan.md"),
        ("indexed_at", .str "2025-01-20T01:30:00Z"), ("chunk_count", .num 8)],
      .obj [("id", .str "doc_2"), ("title", .str "API Design"),
        ("path", .str "api/public/openapi.yaml"),
        ("indexed_at", .str "2025-01-20T01:25:00Z"), ("chunk_count", .num 12)]]),
    ("total_count", .num 2)]

/-- The single result object inside the fixed `/api/search` body. -/
def mockSearchResult : Json :=
  .obj [("score", .num 0.92), ("document_title", .str "API Design"),
    ("content", .str "The API provides endpoints for searching, indexing, and managing documents..."),
    ("snippet", .str "API provides endpoints for searching, indexing"),
    ("section", .str "Overview"), ("doc_type", .str "yaml")]

/-- The fixed `/api/search` response body of `MockAPIHandler.do_GET`. -/
def mockSearchBody : Json :=
  .obj [("query", .str "API endpoints"), ("total_results", .num 3),
    ("results", .arr [mockSearchResult]),
    ("search_metadata", .obj [("embedding_time_ms", .num 15),
      ("search_time_ms", .num 30), ("total_time_ms", .num 45),
      ("model_used", .str "gte-small")])]

/-- The fixed `/api/reindex` response body of `MockAPIHandler.do_POST`. -/
def mockReindexBody : Json :=
  .obj [("status", .str "success"),
    ("message", .str "Reindex completed successfully"),
    ("processed_documents", .num 42), ("total_chunks", .num 156),
    ("duration_seconds", .num 45.2)]

/-- Response body of `MockAPIHandler.do_DELETE` for a matched
`/api/docs/{id}` route, echoing the document id in the message. -/
def mockDeleteBody (docId : String) : Json :=
  .obj [("status", .str "success"),
    ("message", .str ("Document " ++ docId ++ " deleted successfully"))]

/-- `MockAPIHandler.do_GET`, translated from `test_mock_api.py` lines 10-88:
route on `urlparse(self.path).path`; `/api/status` and `/api/docs` exactly,
any path starting with `/api/search`, else 404. -/
def do_GET (url : String) : HttpResponse :=
  let path := urlPath url
  if path = "/api/status" then ⟨200, "application/json", mockStatusBody⟩
  else if path = "/api/docs" then ⟨200, "application/json", mockDocsBody⟩
  else if leads "/api/search" path then ⟨200, "application/json", mockSearchBody⟩
  else ⟨404, "application/json", mockNotFoundBody⟩

/-- `MockAPIHandler.do_POST`, translated from `test_mock_api.py` lines 90-112:
only `/api/reindex` is served; every other path gets 404. -/
def do_POST (url : String) : HttpResponse :=
  let path := urlPath url
  if path = "/api/reindex" then ⟨200, "application/json", mockReindexBody⟩
  else ⟨404, "application/json", mockNotFoundBody⟩

/-- `MockAPIHandler.do_DELETE`, translated from `test_mock_api.py` lines
114-134: any path starting with `/api/docs/` succeeds, echoing
`path.split('/')[-1]` as the deleted document id; no existence check. -/
def do_DELETE (url : String) : HttpResponse :=
  let path := urlPath url
  if leads "/api/docs/" path then
    ⟨200, "application/json", mockDeleteBody (lastSegment path)⟩
  else ⟨404, "application/json", mockNotFoundBody⟩

/-- Modelled from the spec: a JSON-RPC correlation id is a number or a
string (the integration tests use both, e.g. `1` and `"batch1"`).
`id: null` on the wire is treated as an absent id. -/
inductive RpcId where
  | n (v : Int)
  | s (v : String)
deriving DecidableEq

/-- Modelled from the spec (§3): the protocol-neutral representation of one
call.  `id = none` signals a notification (fire-and-forget). -/
structure RequestEnvelope where
  method : String
  params : Json
  id : Option RpcId

/-- Modelled from the spec (§7): the error taxonomy of the dispatch core.
Numeric codes are assigned by each adapter, not here. -/
inductive ErrKind where
  | parseError
  | methodNotFound
  | invalidParams
  | notFound
  | backendUnavailable
  | timeout
  | internalError
deriving DecidableEq

/-- Modelled from the spec: a typed handler failure — an error kind plus a
human-readable message. -/
structure DispatchErr where
  kind : ErrKind
  message : String

/-- Modelled from the spec (§3, §4.1): a registered method.  The spec's
separate param-schema validation step is folded into `run`, which reports
`invalidParams` on a shape mismatch; handlers are total Lean functions, so
the spec's "unclassified failure → InternalError, never a crash" boundary
is inherent in the model. -/
structure RpcMethod where
  name : String
  run : Json → Except DispatchErr Json

/-- Modelled from the spec (§4.1): the registry is the immutable list of
registered methods, built once at startup. -/
def resolveMethod (reg : List RpcMethod) (name : String) : Option RpcMethod :=
  reg.find? (fun m => decide (m.name = name))

/-- Encode a correlation id back to JSON. -/
def encodeId : RpcId → Json
  | .n v => .num (v : Rat)
  | .s s => .str s

/-- Decode the wire `id` field: an integer or a string; anything else
(absent, `null`, fractional, structured) counts as no id. -/
def decodeIdField : Option Json → Option RpcId
  | some (.num q) => if q.den = 1 then some (.n q.num) else none
  | some (.str s) => some (.s s)
  | _ => none

/-- Modelled from the spec (§4.2 step 1): decode one raw JSON value into a
`RequestEnvelope`.  A request must be an object with a string `method`;
`params` defaults to null; the request is a notification when `id` is
absent. -/
def parseRequest (raw : Json) : Option RequestEnvelope :=
  match raw.lookup "method" with
  | some (.str m) =>
      some { method := m, params := (raw.lookup "params").getD .null,
             id := decodeIdField (raw.lookup "id") }
  | _ => none

/-- Modelled from the spec (§4.2 steps 2-5): resolve the method and run its
handler; an unregistered name yields a `methodNotFound` failure. -/
def dispatchEnv (reg : List RpcMethod) (env : RequestEnvelope) :
    Except DispatchErr Json :=
  match resolveMethod reg env.method with
  | none => .error ⟨.methodNotFound, "Method not found: " ++ env.method⟩
  | some m => m.run env.params

/-- Modelled from the spec (§6): the JSON-RPC adapter's numeric code for
each error kind.  Only the four standard codes are fixed by the spec;
domain-level kinds use implementation-defined codes in the -32000 range. -/
def errCode : ErrKind → Int
  | .parseError => -32700
  | .methodNotFound => -32601
  | .invalidParams => -32602
  | .internalError => -32603
  | .notFound => -32000
  | .backendUnavailable => -32001
  | .timeout => -32002

/-- JSON-RPC error object `{code, message}`. -/
def encodeErrObj (e : DispatchErr) : Json :=
  .obj [("code", .num ((errCode e.kind : Int) : Rat)), ("message", .str e.message)]

/-- A JSON-RPC success envelope `{jsonrpc, id, result}`. -/
def mkResultJson (idj : Json) (v : Json) : Json :=
  .obj [("jsonrpc", .str "2.0"), ("id", idj), ("result", v)]

/-- A JSON-RPC error envelope `{jsonrpc, id, error}`. -/
def mkErrorJson (idj : Json) (e : DispatchErr) : Json :=
  .obj [("jsonrpc", .str "2.0"), ("id", idj), ("error", encodeErrObj e)]

/-- Encode a dispatch outcome under a given encoded id: exactly one of
`result` or `error` is emitted. -/
def encodeOutcome (idj : Json) : Except DispatchErr Json → Json
  | .ok v => mkResultJson idj v
  | .error e => mkErrorJson idj e

/-- Modelled from the spec (§4.2, §4.3): the JSON-RPC adapter's handling of
one raw request.  An undecodable request yields a `parseError` envelope
with `id = null`; a notification is executed but returns no response;
otherwise the outcome is encoded under the request's echoed id. -/
def jsonrpcDispatchRaw (reg : List RpcMethod) (raw : Json) : Option Json :=
  match parseRequest raw with
  | none => some (mkErrorJson .null ⟨.parseError, "Parse error"⟩)
  | some env =>
      match env.id with
      | none =>
          let _ := dispatchEnv reg env
          none
      | some i => some (encodeOutcome (encodeId i) (dispatchEnv reg env))

/-- Modelled from the spec (§4.2): batch fan-out.  Every member is
dispatched; only members with an id contribute a response.  Concurrent
completion order is modelled in the theorems by quantifying over every
permutation of this response sequence. -/
def dispatchBatch (reg : List RpcMethod) (reqs : List Json) : List Json :=
  reqs.filterMap (jsonrpcDispatchRaw reg)

/-- Modelled from the spec (§4.2): the execution log of a batch — every
decodable member's envelope paired with its dispatch outcome, notifications
included.  Captures "notifications are still executed for their side
effects". -/
def executionLog (reg : List RpcMethod) (reqs : List Json) :
    List (RequestEnvelope × Except DispatchErr Json) :=
  reqs.filterMap (fun raw => (parseRequest raw).map
    (fun env => (env, dispatchEnv reg env)))

/-- Modelled from the spec (§6, §7): the HTTP JSON-RPC endpoint always
answers a single request with transport status 200 and a well-formed JSON
body (a notification gets an empty reply, modelled as a null body). -/
def handleJsonrpcHttp (reg : List RpcMethod) (raw : Json) : HttpResponse :=
  ⟨200, "application/json", (jsonrpcDispatchRaw reg raw).getD .null⟩

/-- The wire id carried by a response envelope, decoded back to `RpcId`. -/
def respRpcId (resp : Json) : Option RpcId :=
  decodeIdField (resp.lookup "id")

/-- Modelled from the spec (§3): one ranked search match.  The spec's
`section` field is named `sectionName` here (`section` is reserved in
Lean). -/
structure SearchResult where
  score : Rat
  title : String
  content : String
  sectionName : String
  sourceCollection : String
  docType : String
deriving DecidableEq

/-- Modelled from the spec (§3): a search query; `collection = none` means
"search across all collections". -/
structure SearchQuery where
  text : String
  collection : Option String
  threshold : Option Rat
  limit : Option Nat

/-- Modelled from the spec (§3): a default result limit is applied when
`limit` is absent; the spec fixes its existence, not its value. -/
def defaultSearchLimit : Nat := 10

/-- Modelled from the spec (§2, §3, §6): the search backend over a corpus.
`rel` is the opaque text-relevance ranking (a black box per the spec); the
collection filter is applied server-side, then the score threshold, then
the result limit. -/
def backendSearch (rel : String → SearchResult → Bool)
    (corpus : List SearchResult) (q : SearchQuery) : List SearchResult :=
  (((corpus.filter (fun r => rel q.text r)).filter
      (fun r => match q.collection with
        | some c => decide (r.sourceCollection = c)
        | none => true)).filter
      (fun r => match q.threshold with
        | some t => decide (t ≤ r.score)
        | none => true)).take
    (q.limit.getD defaultSearchLimit)

/-- String-valued field of a JSON object, if present with that shape. -/
def strField (j : Json) (k : String) : Option String :=
  match j.lookup k with
  | some (.str s) => some s
  | _ => none

/-- Positive-integer-valued field of a JSON object; any other shape counts
as absent. -/
def natField (j : Json) (k : String) : Option Nat :=
  match j.lookup k with
  | some (.num q) => if q.den = 1 ∧ 1 ≤ q.num then some q.num.toNat else none
  | _ => none

/-- Numeric field of a JSON object, if present. -/
def ratField (j : Json) (k : String) : Option Rat :=
  match j.lookup k with
  | some (.num q) => some q
  | _ => none

/-- Modelled from the spec (§6): decode `document.search` JSON-RPC params
`{query, filters: {collection}, threshold, limit}` into a `SearchQuery`;
a missing `query` string is a shape mismatch. -/
def decodeSearchParams (params : Json) : Option SearchQuery :=
  match strField params "query" with
  | some t =>
      some { text := t,
             collection := (params.lookup "filters").bind
               (fun f => strField f "collection"),
             threshold := ratField params "threshold",
             limit := natField params "limit" }
  | none => none

/-- Modelled from the spec (§4.3, §6): decode the `POST /api/search` REST
body into a `SearchQuery`; field naming follows the integration tests
(`query`, `filters.collection_name`, `limit`). -/
def decodeRestSearchBody (body : Json) : Option SearchQuery :=
  match strField body "query" with
  | some t =>
      some { text := t,
             collection := (body.lookup "filters").bind
               (fun f => strField f "collection_name"),
             threshold := ratField body "threshold",
             limit := natField body "limit" }
  | none => none

/-- Modelled from the spec (§1, §8): the CLI `search TEXT [--collection C]
[--limit N]` invocation builds the same `SearchQuery` as the other
transports. -/
def cliSearchQuery (text : String) (collection : Option String)
    (limit : Option Nat) : SearchQuery :=
  { text := text, collection := collection, threshold := none, limit := limit }

/-- Encode one search result for the wire. -/
def encodeSearchResult (r : SearchResult) : Json :=
  .obj [("score", .num r.score), ("title", .str r.title),
    ("content", .str r.content), ("section", .str r.sectionName),
    ("sourceCollection", .str r.sourceCollection),
    ("docType", .str r.docType)]

/-- Modelled from the spec (§6): a search response body
`{results: [...], search_metadata}`. -/
def encodeSearchResponse (rs : List SearchResult) : Json :=
  .obj [("results", .arr (rs.map encodeSearchResult)),
    ("search_metadata", .obj [("total_results", .num (rs.length : Rat))])]

/-- Modelled from the spec: the `document.search` handler — validate the
params shape, then query the backend. -/
def documentSearchRun (rel : String → SearchResult → Bool)
    (corpus : List SearchResult) (params : Json) : Except DispatchErr Json :=
  match decodeSearchParams params with
  | some q => .ok (encodeSearchResponse (backendSearch rel corpus q))
  | none => .error ⟨.invalidParams, "missing or invalid field: query"⟩

/-- Modelled from the spec (§6): fixed `service.info` metadata (contents
unconstrained by the spec). -/
def serviceInfoBody : Json :=
  .obj [("name", .str "doc-indexer"), ("version", .str "0.1.0")]

/-- Modelled from the spec (§6): fixed `health.check` result. -/
def healthBody : Json := .obj [("status", .str "healthy")]

/-- Modelled from the spec (§4.1): the three core domain methods. -/
def baseRegistry (rel : String → SearchResult → Bool)
    (corpus : List SearchResult) : List RpcMethod :=
  [⟨"service.info", fun _ => .ok serviceInfoBody⟩,
   ⟨"health.check", fun _ => .ok healthBody⟩,
   ⟨"document.search", documentSearchRun rel corpus⟩]

/-- Modelled from the spec (§4.3): `tools/list` re-describes the core
methods as tools. -/
def toolsListRun (rel : String → SearchResult → Bool)
    (corpus : List SearchResult) (_params : Json) : Except DispatchErr Json :=
  .ok (.obj [("tools", .arr ((baseRegistry rel corpus).map
    (fun m => .obj [("name", .str m.name)])))])

/-- Modelled from the spec (§4.3): `tools/call` params carry
`{name, arguments}`; the MCP adapter rewrites them into a request envelope
with `method` the tool name and `params = arguments`, then delegates to
dispatch on the core registry. -/
def toolsCallRun (rel : String → SearchResult → Bool)
    (corpus : List SearchResult) (params : Json) : Except DispatchErr Json :=
  match strField params "name" with
  | some n => dispatchEnv (baseRegistry rel corpus)
      { method := n, params := (params.lookup "arguments").getD .null,
        id := none }
  | none => .error ⟨.invalidParams, "missing field: name"⟩

/-- Modelled from the spec (§4.1): the full startup registry — the five
known methods. -/
def fullRegistry (rel : String → SearchResult → Bool)
    (corpus : List SearchResult) : List RpcMethod :=
  baseRegistry rel corpus ++
    [⟨"tools/list", toolsListRun rel corpus⟩,
     ⟨"tools/call", toolsCallRun rel corpus⟩]

/-- Modelled from the spec (§4.3, §6): the REST adapter's POST routing — a
static path-to-method mapping; `/api/search` decodes the body into a
`SearchQuery` and runs the same backend search as every other transport;
an undecodable body is an `InvalidParams`-style 400; unknown paths are
404. -/
def restHandlePost (rel : String → SearchResult → Bool)
    (corpus : List SearchResult) (path : String) (body : Json) : HttpResponse :=
  if path = "/api/search" then
    match decodeRestSearchBody body with
    | some q =>
        ⟨200, "application/json",
          encodeSearchResponse (backendSearch rel corpus q)⟩
    | none => ⟨400, "application/json",
        .obj [("error", .str "invalid search query")]⟩
  else if path = "/api/reindex" then
    ⟨200, "application/json", .obj [("status", .str "success")]⟩
  else ⟨404, "application/json", .obj [("error", .str "Not found")]⟩

/-- The REST search pipeline's result list (before encoding). -/
def restSearchResults (rel : String → SearchResult → Bool)
    (corpus : List SearchResult) (body : Json) : Option (List SearchResult) :=
  (decodeRestSearchBody body).map (backendSearch rel corpus)

/-- The JSON-RPC `document.search` pipeline's result list (before
encoding). -/
def jsonrpcSearchResults (rel : String → SearchResult → Bool)
    (corpus : List SearchResult) (params : Json) : Option (List SearchResult) :=
  (decodeSearchParams params).map (backendSearch rel corpus)

/-- The CLI search pipeline's result list. -/
def cliSearchResults (rel : String → SearchResult → Bool)
    (corpus : List SearchResult) (text : String) (collection : Option String)
    (limit : Option Nat) : List SearchResult :=
  backendSearch rel corpus (cliSearchQuery text collection limit)

/-- A URL whose path starts with `/api/search` hits neither of the two
exact GET routes checked before it, so `do_GET` takes the search branch. -/
theorem do_GET_eq_search {u : String}
    (h : leads "/api/search" (urlPath u) = true) :
    do_GET u = ⟨200, "application/json", mockSearchBody⟩ := by
  have hs : ¬ urlPath u = "/api/status" := by
    intro he
    rw [he] at h
    exact absurd h (by decide)
  have hd : ¬ urlPath u = "/api/docs" := by
    intro he
    rw [he] at h
    exact absurd h (by decide)
  unfold do_GET
  rw [if_neg hs, if_neg hd, if_pos h]

/-- C8: every GET whose URL path (`urlparse(self.path).path`) starts with
`/api/search` gets status 200 and the one fixed body — query
`"API endpoints"`, `total_results` 3, a single result with no
`collection`/`sourceCollection` field — independent of any query string,
filter or limit, so any two such requests receive identical replies.
Scoped to request targets with a plain-ASCII bracket-free authority
(`safeAuthority`), on which `urlparse` is total and version-independent. -/
theorem mock_get_search_fixed (u₁ u₂ : String)
    (_hs₁ : safeAuthority u₁ = true)
    (_hs₂ : safeAuthority u₂ = true)
    (h₁ : leads "/api/search" (urlPath u₁) = true)
    (h₂ : leads "/api/search" (urlPath u₂) = true) :
    do_GET u₁ = ⟨200, "application/json", mockSearchBody⟩ ∧
    do_GET u₂ = do_GET u₁ ∧
    mockSearchBody.lookup "query" = some (.str "API endpoints") ∧
    mockSearchBody.lookup "total_results" = some (.num 3) ∧
    mockSearchBody.lookup "results" = some (.arr [mockSearchResult]) ∧
    mockSearchResult.lookup "collection" = none ∧
    mockSearchResult.lookup "sourceCollection" = none := by
  refine ⟨do_GET_eq_search h₁, ?_, rfl, rfl, rfl, rfl, rfl⟩
  rw [do_GET_eq_search h₁, do_GET_eq_search h₂]

/-- C8 witness: two concrete `/api/search` targets — one with a query
string, one reaching the path through a `//netloc` authority. -/
theorem mock_get_search_fixed_witness :
    do_GET "/api/search?q=API+endpoints&limit=5" =
      ⟨200, "application/json", mockSearchBody⟩ ∧
    do_GET "//x/api/search" =
      do_GET "/api/search?q=API+endpoints&limit=5" :=
  ⟨(mock_get_search_fixed "/api/search?q=API+endpoints&limit=5"
      "//x/api/search" (by decide) (by decide) (by decide) (by decide)).1,
   (mock_get_search_fixed "/api/search?q=API+endpoints&limit=5"
      "//x/api/search" (by decide) (by decide) (by decide) (by decide)).2.1⟩

/-- C9: every response of the three mock handlers carries
`Content-Type: application/json` (the body is a `Json` value by
construction), and every request whose `urlparse` path matches no handled
route gets status 404 with body `{"error": "Not found"}`.  Scoped to
request targets with a plain-ASCII bracket-free authority
(`safeAuthority`), on which `urlparse` is total and version-independent. -/
theorem mock_content_type_and_not_found :
    (∀ u : String, safeAuthority u = true →
      (do_GET u).contentType = "application/json" ∧
      (do_POST u).contentType = "application/json" ∧
      (do_DELETE u).contentType = "application/json") ∧
    (∀ u : String, safeAuthority u = true →
      ¬ urlPath u = "/api/status" → ¬ urlPath u = "/api/docs" →
      leads "/api/search" (urlPath u) = false →
      do_GET u = ⟨404, "application/json", mockNotFoundBody⟩) ∧
    (∀ u : String, safeAuthority u = true → ¬ urlPath u = "/api/reindex" →
      do_POST u = ⟨404, "application/json", mockNotFoundBody⟩) ∧
    (∀ u : String, safeAuthority u = true →
      leads "/api/docs/" (urlPath u) = false →
      do_DELETE u = ⟨404, "application/json", mockNotFoundBody⟩) := by
  refine ⟨fun u _hu => ⟨?_, ?_, ?_⟩, fun u _hu hs hd hsr => ?_,
    fun u _hu hr => ?_, fun u _hu hd => ?_⟩
  · unfold do_GET
    dsimp only
    split
    · rfl
    · split
      · rfl
      · split <;> rfl
  · unfold do_POST
    dsimp only
    split <;> rfl
  · unfold do_DELETE
    dsimp only
    split <;> rfl
  · unfold do_GET
    rw [if_neg hs, if_neg hd, if_neg (by rw [hsr]; exact Bool.false_ne_true)]
  · unfold do_POST
    rw [if_neg hr]
  · unfold do_DELETE
    rw [if_neg (by rw [hd]; exact Bool.false_ne_true)]

/-- C9 witness: a concrete unrouted URL on each verb. -/
theorem mock_content_type_and_not_found_witness :
    (do_GET "/nope").contentType = "application/json" ∧
    do_GET "/nope" = ⟨404, "application/json", mockNotFoundBody⟩ ∧
    do_POST "/api/search" = ⟨404, "application/json", mockNotFoundBody⟩ ∧
    do_DELETE "/api/docs" = ⟨404, "application/json", mockNotFoundBody⟩ :=
  ⟨(mock_content_type_and_not_found.1 "/nope" (by decide)).1,
   mock_content_type_and_not_found.2.1 "/nope" (by decide) (by decide)
     (by decide) (by decide),
   mock_content_type_and_not_found.2.2.1 "/api/search" (by decide)
     (by decide),
   mock_content_type_and_not_found.2.2.2 "/api/docs" (by decide)
     (by decide)⟩

/-- C10: every DELETE whose `urlparse` path starts with `/api/docs/`
succeeds with status 200 and a message echoing the path segment after the
last `/` as the document id (no existence check is performed — the reply
is a pure function of the path); in particular the path `/api/docs/`
itself succeeds, echoing an empty id.  Scoped to request targets with a
plain-ASCII bracket-free authority (`safeAuthority`), on which `urlparse`
is total and version-independent. -/
theorem mock_delete_echoes_id (u : String)
    (_hs : safeAuthority u = true)
    (h : leads "/api/docs/" (urlPath u) = true) :
    do_DELETE u =
      ⟨200, "application/json", mockDeleteBody (lastSegment (urlPath u))⟩ ∧
    (mockDeleteBody (lastSegment (urlPath u))).lookup "message" =
      some (.str ("Document " ++ lastSegment (urlPath u) ++
        " deleted successfully")) ∧
    do_DELETE "/api/docs/" = ⟨200, "application/json", mockDeleteBody ""⟩ ∧
    lastSegment "/api/docs/" = "" ∧
    (mockDeleteBody "").lookup "message" =
      some (.str "Document  deleted successfully") := by
  refine ⟨?_, rfl, rfl, rfl, rfl⟩
  unfold do_DELETE
  rw [if_pos h]

/-- C10 witness: a concrete deletion whose target carries `;params` — the
echoed id is the params-stripped segment `doc_1`, as the program echoes. -/
theorem mock_delete_echoes_id_witness :
    do_DELETE "/api/docs/doc_1;rev=2" =
      ⟨200, "application/json",
        mockDeleteBody (lastSegment (urlPath "/api/docs/doc_1;rev=2"))⟩ ∧
    lastSegment (urlPath "/api/docs/doc_1;rev=2") = "doc_1" ∧
    lastSegment (urlPath "/api/docs/") = "" :=
  ⟨(mock_delete_echoes_id "/api/docs/doc_1;rev=2" (by decide)
      (by decide)).1,
   by decide, by decide⟩

/-- Decoding an encoded correlation id gives the id back. -/
theorem decodeIdField_encodeId (i : RpcId) :
    decodeIdField (some (encodeId i)) = some i := by
  cases i with
  | n v => simp [encodeId, decodeIdField, Rat.den_intCast, Rat.num_intCast]
  | s v => rfl

/-- A success envelope binds `result`, not `error`, and echoes its id. -/
theorem mkResultJson_fields (idj v : Json) :
    (mkResultJson idj v).lookup "result" = some v ∧
    (mkResultJson idj v).lookup "error" = none ∧
    (mkResultJson idj v).lookup "id" = some idj :=
  ⟨rfl, rfl, rfl⟩

/-- An error envelope binds `error`, not `result`, and echoes its id. -/
theorem mkErrorJson_fields (idj : Json) (e : DispatchErr) :
    (mkErrorJson idj e).lookup "error" = some (encodeErrObj e) ∧
    (mkErrorJson idj e).lookup "result" = none ∧
    (mkErrorJson idj e).lookup "id" = some idj :=
  ⟨rfl, rfl, rfl⟩

/-- Any response the JSON-RPC adapter emits for an id-carrying request
decodes back to that id. -/
theorem respRpcId_encodeOutcome (i : RpcId) (out : Except DispatchErr Json) :
    respRpcId (encodeOutcome (encodeId i) out) = some i := by
  cases out with
  | ok v =>
      show decodeIdField ((mkResultJson (encodeId i) v).lookup "id") = some i
      rw [(mkResultJson_fields (encodeId i) v).2.2, decodeIdField_encodeId]
  | error e =>
      show decodeIdField ((mkErrorJson (encodeId i) e).lookup "id") = some i
      rw [(mkErrorJson_fields (encodeId i) e).2.2, decodeIdField_encodeId]

/-- C6: every response the dispatch core emits carries exactly one of
`result`/`error`, and its `id` echoes the answered request's id — null
exactly when the request was unparsable. -/
theorem response_envelope_invariant (reg : List RpcMethod) (raw resp : Json)
    (h : jsonrpcDispatchRaw reg raw = some resp) :
    ((resp.hasKey "result" = true ∧ resp.hasKey "error" = false) ∨
     (resp.hasKey "result" = false ∧ resp.hasKey "error" = true)) ∧
    (∀ env, parseRequest raw = some env →
      ∃ i, env.id = some i ∧ resp.lookup "id" = some (encodeId i)) ∧
    (parseRequest raw = none → resp.lookup "id" = some Json.null) := by
  cases hp : parseRequest raw with
  | none =>
      simp only [jsonrpcDispatchRaw, hp, Option.some.injEq] at h
      subst h
      exact ⟨Or.inr ⟨rfl, rfl⟩, fun env henv => absurd henv (by simp),
        fun _ => rfl⟩
  | some env =>
      simp only [jsonrpcDispatchRaw, hp] at h
      cases hid : env.id with
      | none => simp [hid] at h
      | some i =>
          simp only [hid, Option.some.injEq] at h
          subst h
          refine ⟨?_, fun env' henv' => ?_, fun hnone => absurd hnone (by simp)⟩
          · cases hout : dispatchEnv reg env with
            | ok v => exact Or.inl ⟨rfl, rfl⟩
            | error e => exact Or.inr ⟨rfl, rfl⟩
          · injection henv' with henv'
            subst henv'
            refine ⟨i, hid, ?_⟩
            cases hout : dispatchEnv reg env with
            | ok v => exact (mkResultJson_fields _ _).2.2
            | error e => exact (mkErrorJson_fields _ _).2.2

/-- A corpus with results in two collections, used as concrete input in
the witnesses below. -/
def sampleResultA : SearchResult :=
  ⟨1, "Title A", "Content A", "S1", "docs-a", "md"⟩

/-- A second sample result, in another collection. -/
def sampleResultB : SearchResult :=
  ⟨0, "Title B", "Content B", "S2", "docs-b", "md"⟩

/-- The two-collection sample corpus. -/
def sampleCorpus : List SearchResult := [sampleResultA, sampleResultB]

/-- The trivial relevance ranking: everything matches. -/
def relAll : String → SearchResult → Bool := fun _ _ => true

/-- The startup registry over the sample corpus. -/
def sampleRegistry : List RpcMethod := fullRegistry relAll sampleCorpus

/-- A concrete `service.info` request with id 1. -/
def sampleInfoReq : Json :=
  .obj [("jsonrpc", .str "2.0"), ("method", .str "service.info"),
    ("id", .num 1)]

/-- C6 witness: the concrete `service.info` call with id 1. -/
theorem response_envelope_invariant_witness :
    (((mkResultJson (encodeId (.n 1)) serviceInfoBody).hasKey "result" = true ∧
      (mkResultJson (encodeId (.n 1)) serviceInfoBody).hasKey "error" = false) ∨
     ((mkResultJson (encodeId (.n 1)) serviceInfoBody).hasKey "result" = false ∧
      (mkResultJson (encodeId (.n 1)) serviceInfoBody).hasKey "error" = true)) ∧
    (∀ env, parseRequest sampleInfoReq = some env →
      ∃ i, env.id = some i ∧
        (mkResultJson (encodeId (.n 1)) serviceInfoBody).lookup "id" =
          some (encodeId i)) ∧
    (parseRequest sampleInfoReq = none →
      (mkResultJson (encodeId (.n 1)) serviceInfoBody).lookup "id" =
        some Json.null) :=
  response_envelope_invariant sampleRegistry sampleInfoReq
    (mkResultJson (encodeId (.n 1)) serviceInfoBody) rfl

/-- C4: a request whose method is not registered is answered as a
protocol-level success — transport status 200 with a well-formed envelope
whose `error.code` is -32601 and which carries no `result` — never a
bodyless 5xx or a crash (the adapter is a total function). -/
theorem unknown_method_not_found (reg : List RpcMethod) (raw : Json)
    (env : RequestEnvelope) (i : RpcId)
    (hp : parseRequest raw = some env)
    (hid : env.id = some i)
    (hm : resolveMethod reg env.method = none) :
    handleJsonrpcHttp reg raw =
      ⟨200, "application/json",
        mkErrorJson (encodeId i)
          ⟨.methodNotFound, "Method not found: " ++ env.method⟩⟩ ∧
    (mkErrorJson (encodeId i)
        ⟨.methodNotFound, "Method not found: " ++ env.method⟩).lookup "error" =
      some (encodeErrObj
        ⟨.methodNotFound, "Method not found: " ++ env.method⟩) ∧
    (encodeErrObj
        ⟨.methodNotFound, "Method not found: " ++ env.method⟩).lookup "code" =
      some (.num ((-32601 : Int) : Rat)) ∧
    (mkErrorJson (encodeId i)
        ⟨.methodNotFound, "Method not found: " ++ env.method⟩).hasKey
      "result" = false := by
  have hdisp : dispatchEnv reg env =
      .error ⟨.methodNotFound, "Method not found: " ++ env.method⟩ := by
    unfold dispatchEnv
    rw [hm]
  refine ⟨?_, rfl, rfl, rfl⟩
  simp only [handleJsonrpcHttp, jsonrpcDispatchRaw, hp, hid, hdisp]
  rfl

/-- A concrete request for the unregistered method `invalid.method`. -/
def sampleInvalidReq : Json :=
  .obj [("jsonrpc", .str "2.0"), ("method", .str "invalid.method"),
    ("id", .num 5)]

/-- C4 witness: `{"method":"invalid.method","id":5}` against the sample
registry. -/
theorem unknown_method_not_found_witness :
    handleJsonrpcHttp sampleRegistry sampleInvalidReq =
      ⟨200, "application/json",
        mkErrorJson (encodeId (.n 5))
          ⟨.methodNotFound, "Method not found: " ++ "invalid.method"⟩⟩ ∧
    (encodeErrObj
        ⟨.methodNotFound, "Method not found: " ++ "invalid.method"⟩).lookup
      "code" = some (.num ((-32601 : Int) : Rat)) :=
  ⟨(unknown_method_not_found sampleRegistry sampleInvalidReq
      ⟨"invalid.method", .null, some (.n 5)⟩ (.n 5) rfl rfl rfl).1,
   (unknown_method_not_found sampleRegistry sampleInvalidReq
      ⟨"invalid.method", .null, some (.n 5)⟩ (.n 5) rfl rfl rfl).2.2.1⟩

/-- C7: a notification (no id) inside a batch is executed — its envelope
and outcome appear in the execution log — yet contributes no entry to the
batch response array: the responses are exactly those of its siblings. -/
theorem notification_executed_but_dropped (reg : List RpcMethod)
    (pre post : List Json) (r : Json) (env : RequestEnvelope)
    (hp : parseRequest r = some env) (hid : env.id = none) :
    (env, dispatchEnv reg env) ∈ executionLog reg (pre ++ r :: post) ∧
    dispatchBatch reg (pre ++ r :: post) = dispatchBatch reg (pre ++ post) := by
  constructor
  · unfold executionLog
    rw [List.filterMap_append]
    refine List.mem_append_right _ ?_
    rw [List.filterMap_cons]
    simp only [hp, Option.map_some']
    exact List.mem_cons_self _ _
  · have hnone : jsonrpcDispatchRaw reg r = none := by
      simp only [jsonrpcDispatchRaw, hp, hid]
    unfold dispatchBatch
    rw [List.filterMap_append, List.filterMap_append, List.filterMap_cons,
      hnone]

/-- A concrete notification: `health.check` with no id. -/
def sampleNotification : Json :=
  .obj [("jsonrpc", .str "2.0"), ("method", .str "health.check")]

/-- C7 witness: the concrete notification between two id-carrying
requests. -/
theorem notification_executed_but_dropped_witness :
    (⟨"health.check", Json.null, none⟩,
      dispatchEnv sampleRegistry ⟨"health.check", Json.null, none⟩) ∈
      executionLog sampleRegistry
        [sampleInfoReq, sampleNotification, sampleInvalidReq] ∧
    dispatchBatch sampleRegistry
        [sampleInfoReq, sampleNotification, sampleInvalidReq] =
      dispatchBatch sampleRegistry [sampleInfoReq, sampleInvalidReq] :=
  notification_executed_but_dropped sampleRegistry [sampleInfoReq]
    [sampleInvalidReq] sampleNotification ⟨"health.check", Json.null, none⟩
    rfl rfl

/-- The request-side correlation id: the id of the decoded envelope, if
the member decodes at all. -/
def reqIdOf (r : Json) : Option RpcId :=
  (parseRequest r).bind (fun env => env.id)

/-- Whether a batch member fails: its handler outcome is an error (an
undecodable member counts as failing via the parse-error response). -/
def reqFails (reg : List RpcMethod) (r : Json) : Bool :=
  match parseRequest r with
  | some env =>
      match dispatchEnv reg env with
      | .ok _ => false
      | .error _ => true
  | none => true

/-- Filtering a `filterMap` image has the same length as filtering the
source by the transported predicate. -/
theorem filterMap_filter_length {α β : Type} (f : α → Option β)
    (p : β → Bool) (l : List α) :
    ((l.filterMap f).filter p).length =
      (l.filter (fun a => ((f a).map p).getD false)).length := by
  induction l with
  | nil => rfl
  | cons a l ih =>
      rw [List.filterMap_cons]
      cases h : f a with
      | none => simp [List.filter_cons, h, ih]
      | some b => cases hp : p b <;> simp [List.filter_cons, h, hp, ih]

/-- The id-carrying request at the head of the dispatch pipeline: its
response decodes back to exactly its id. -/
theorem jsonrpcDispatchRaw_of_id (reg : List RpcMethod) {r : Json}
    {env : RequestEnvelope} {i : RpcId}
    (hp : parseRequest r = some env) (hid : env.id = some i) :
    jsonrpcDispatchRaw reg r =
      some (encodeOutcome (encodeId i) (dispatchEnv reg env)) := by
  simp only [jsonrpcDispatchRaw, hp, hid]

/-- Pointwise transport of the per-id response count to the request side. -/
theorem dispatchResp_id_pointwise (reg : List RpcMethod) (i : RpcId)
    (r : Json) :
    ((jsonrpcDispatchRaw reg r).map
        (fun resp => decide (respRpcId resp = some i))).getD false =
      decide (reqIdOf r = some i) := by
  cases hp : parseRequest r with
  | none =>
      have h1 : jsonrpcDispatchRaw reg r =
          some (mkErrorJson Json.null ⟨.parseError, "Parse error"⟩) := by
        simp only [jsonrpcDispatchRaw, hp]
      have h2 : respRpcId (mkErrorJson Json.null
          ⟨.parseError, "Parse error"⟩) = none := rfl
      rw [h1, Option.map_some', Option.getD_some, h2]
      simp [reqIdOf, hp]
  | some env =>
      cases hid : env.id with
      | none =>
          have h1 : jsonrpcDispatchRaw reg r = none := by
            simp only [jsonrpcDispatchRaw, hp, hid]
          rw [h1]
          simp [reqIdOf, hp, hid]
      | some j =>
          rw [jsonrpcDispatchRaw_of_id reg hp hid, Option.map_some',
            Option.getD_some, respRpcId_encodeOutcome]
          simp [reqIdOf, hp, hid]

/-- Pointwise transport of the error-response count to the request side,
for decodable id-carrying members. -/
theorem dispatchResp_err_pointwise (reg : List RpcMethod) {r : Json}
    {env : RequestEnvelope} {i : RpcId}
    (hp : parseRequest r = some env) (hid : env.id = some i) :
    ((jsonrpcDispatchRaw reg r).map
        (fun resp => resp.hasKey "error")).getD false = reqFails reg r := by
  rw [jsonrpcDispatchRaw_of_id reg hp hid, Option.map_some', Option.getD_some]
  simp only [reqFails, hp]
  cases hout : dispatchEnv reg env with
  | ok v => rfl
  | error e => rfl

/-- In a duplicate-free list, a member is hit by the equality filter
exactly once. -/
theorem nodup_filter_eq_length_one {l : List RpcId} {a : RpcId}
    (hn : l.Nodup) (ha : a ∈ l) :
    (l.filter (fun x => decide (x = a))).length = 1 := by
  induction l with
  | nil => cases ha
  | cons b l ih =>
      rcases List.nodup_cons.mp hn with ⟨hb, hn'⟩
      rw [List.filter_cons]
      by_cases hba : b = a
      · subst hba
        have hnil : l.filter (fun x => decide (x = b)) = [] :=
          List.filter_eq_nil_iff.mpr (fun x hx hxb => by
            rw [decide_eq_true_eq] at hxb
            exact hb (hxb ▸ hx))
        simp [hnil]
      · have ha' : a ∈ l := by
          rcases List.mem_cons.mp ha with h | h
          · exact absurd h.symm hba
          · exact h
        simp [hba, ih hn' ha']

/-- C2: for a batch of N decodable requests with unique non-null ids, any
completion order (any permutation of the batch's response sequence) yields
exactly N responses with each id appearing exactly once; and when exactly
one member fails, the batch still has one error-carrying response and only
the failing member's id carries it. -/
theorem batch_correlation (reg : List RpcMethod) (reqs out : List Json)
    (hall : ∀ r ∈ reqs, ∃ env, parseRequest r = some env ∧
      env.id.isSome = true)
    (hnodup : (reqs.filterMap reqIdOf).Nodup)
    (hperm : out.Perm (dispatchBatch reg reqs)) :
    out.length = reqs.length ∧
    (∀ i ∈ reqs.filterMap reqIdOf,
      (out.filter (fun resp => decide (respRpcId resp = some i))).length = 1) ∧
    ((reqs.filter (reqFails reg)).length = 1 →
      (out.filter (fun resp => resp.hasKey "error")).length = 1 ∧
      ∀ resp ∈ out, resp.hasKey "error" = true →
        ∃ r ∈ reqs, reqFails reg r = true ∧ respRpcId resp = reqIdOf r) := by
  refine ⟨?_, ?_, fun hone => ⟨?_, ?_⟩⟩
  · rw [hperm.length_eq]
    have h1 := filterMap_filter_length (jsonrpcDispatchRaw reg)
      (fun _ => true) reqs
    rw [List.filter_true] at h1
    unfold dispatchBatch
    rw [h1, List.filter_eq_self.mpr ?_]
    intro r hr
    obtain ⟨env, hp, hids⟩ := hall r hr
    obtain ⟨i, hid⟩ := Option.isSome_iff_exists.mp hids
    rw [jsonrpcDispatchRaw_of_id reg hp hid]
    rfl
  · intro i hi
    rw [(hperm.filter _).length_eq]
    unfold dispatchBatch
    rw [filterMap_filter_length,
      List.filter_congr (fun r _ => dispatchResp_id_pointwise reg i r)]
    have e1 : ∀ r ∈ reqs,
        (fun r => decide (reqIdOf r = some i)) r =
        (fun r => ((reqIdOf r).map (fun x => decide (x = i))).getD false) r := by
      intro r _
      cases h : reqIdOf r <;> simp [h]
    rw [List.filter_congr e1, ← filterMap_filter_length reqIdOf
      (fun x => decide (x = i)) reqs]
    exact nodup_filter_eq_length_one hnodup hi
  · rw [(hperm.filter _).length_eq]
    unfold dispatchBatch
    rw [filterMap_filter_length, List.filter_congr ?_]
    · exact hone
    · intro r hr
      obtain ⟨env, hp, hids⟩ := hall r hr
      obtain ⟨i, hid⟩ := Option.isSome_iff_exists.mp hids
      exact dispatchResp_err_pointwise reg hp hid
  · intro resp hresp herr
    have hmem : resp ∈ dispatchBatch reg reqs := hperm.mem_iff.mp hresp
    obtain ⟨r, hr, hf⟩ := List.mem_filterMap.mp hmem
    obtain ⟨env, hp, hids⟩ := hall r hr
    obtain ⟨i, hid⟩ := Option.isSome_iff_exists.mp hids
    rw [jsonrpcDispatchRaw_of_id reg hp hid] at hf
    injection hf with hf
    subst hf
    cases hout : dispatchEnv reg env with
    | ok v =>
        rw [hout] at herr
        exact Bool.noConfusion herr
    | error e =>
        refine ⟨r, hr, ?_, ?_⟩
        · simp only [reqFails, hp, hout]
        · rw [respRpcId_encodeOutcome]
          simp [reqIdOf, hp, hid]

/-- The concrete response to `sampleInfoReq`. -/
def respInfo : Json := mkResultJson (encodeId (.n 1)) serviceInfoBody

/-- The concrete error response to `sampleInvalidReq`. -/
def respInvalid : Json :=
  mkErrorJson (encodeId (.n 5))
    ⟨.methodNotFound, "Method not found: " ++ "invalid.method"⟩

/-- C2 witness: a concrete two-member batch — one succeeding, one failing
member — observed in swapped (out-of-order) completion order. -/
theorem batch_correlation_witness :
    ([respInvalid, respInfo] : List Json).length =
      ([sampleInfoReq, sampleInvalidReq] : List Json).length ∧
    (([respInvalid, respInfo] : List Json).filter
        (fun resp => decide (respRpcId resp = some (.n 1)))).length = 1 ∧
    (([respInvalid, respInfo] : List Json).filter
        (fun resp => resp.hasKey "error")).length = 1 := by
  have T := batch_correlation sampleRegistry [sampleInfoReq, sampleInvalidReq]
    [respInvalid, respInfo]
    (by
      intro r hr
      simp only [List.mem_cons, List.not_mem_nil, or_false] at hr
      rcases hr with rfl | rfl
      · exact ⟨⟨"service.info", Json.null, some (.n 1)⟩, rfl, rfl⟩
      · exact ⟨⟨"invalid.method", Json.null, some (.n 5)⟩, rfl, rfl⟩)
    (by decide)
    (by exact List.Perm.swap respInfo respInvalid [])
  exact ⟨T.1, T.2.1 (.n 1) (by decide), (T.2.2 (by decide)).1⟩

/-- Server-side filtering: when the query names a collection, the backend
returns only results from it. -/
theorem backendSearch_collection {rel : String → SearchResult → Bool}
    {corpus : List SearchResult} {q : SearchQuery} {C : String}
    (hq : q.collection = some C) :
    ∀ r ∈ backendSearch rel corpus q, r.sourceCollection = C := by
  intro r hr
  unfold backendSearch at hr
  have hr1 := List.mem_of_mem_take hr
  have hr2 := (List.mem_filter.mp hr1).1
  have hp := (List.mem_filter.mp hr2).2
  rw [hq] at hp
  exact of_decide_eq_true hp

/-- A collection absent from the corpus filters everything out. -/
theorem backendSearch_unknown {rel : String → SearchResult → Bool}
    {corpus : List SearchResult} {q : SearchQuery} {C : String}
    (hq : q.collection = some C)
    (hC : C ∉ corpus.map (fun r => r.sourceCollection)) :
    backendSearch rel corpus q = [] := by
  unfold backendSearch
  have h2 : (corpus.filter (fun r => rel q.text r)).filter
      (fun r => match q.collection with
        | some c => decide (r.sourceCollection = c)
        | none => true) = [] := by
    apply List.filter_eq_nil_iff.mpr
    intro r hr hp
    rw [hq] at hp
    exact hC (List.mem_map.mpr
      ⟨r, (List.mem_filter.mp hr).1, of_decide_eq_true hp⟩)
  rw [h2]
  simp

/-- The REST body decoder takes the query's collection from
`filters.collection_name`. -/
theorem decodeRest_collection {body : Json} {q : SearchQuery}
    (h : decodeRestSearchBody body = some q) :
    q.collection =
      (body.lookup "filters").bind (fun f => strField f "collection_name") := by
  cases ht : strField body "query" with
  | none => simp [decodeRestSearchBody, ht] at h
  | some t =>
      simp only [decodeRestSearchBody, ht, Option.some.injEq] at h
      subst h
      rfl

/-- The JSON-RPC params decoder takes the query's collection from
`filters.collection`. -/
theorem decodeParams_collection {params : Json} {q : SearchQuery}
    (h : decodeSearchParams params = some q) :
    q.collection =
      (params.lookup "filters").bind (fun f => strField f "collection") := by
  cases ht : strField params "query" with
  | none => simp [decodeSearchParams, ht] at h
  | some t =>
      simp only [decodeSearchParams, ht, Option.some.injEq] at h
      subst h
      rfl

/-- C1: whichever transport carries the collection identifier `C` — the
REST body's `filters.collection_name`, the JSON-RPC params'
`filters.collection`, or the CLI `--collection` flag — every returned
result's `sourceCollection` equals `C` (the filter is applied in the one
shared backend call); with the field absent, results may span several
collections. -/
theorem collection_filter_all_transports
    (rel : String → SearchResult → Bool) (corpus : List SearchResult)
    (C : String) :
    (∀ body q, decodeRestSearchBody body = some q →
      (body.lookup "filters").bind (fun f => strField f "collection_name") =
        some C →
      ∀ r ∈ backendSearch rel corpus q, r.sourceCollection = C) ∧
    (∀ params q, decodeSearchParams params = some q →
      (params.lookup "filters").bind (fun f => strField f "collection") =
        some C →
      ∀ r ∈ backendSearch rel corpus q, r.sourceCollection = C) ∧
    (∀ text limit, ∀ r ∈ cliSearchResults rel corpus text (some C) limit,
      r.sourceCollection = C) ∧
    (∃ text r₁ r₂,
      r₁ ∈ cliSearchResults relAll sampleCorpus text none none ∧
      r₂ ∈ cliSearchResults relAll sampleCorpus text none none ∧
      r₁.sourceCollection ≠ r₂.sourceCollection) := by
  refine ⟨?_, ?_, ?_, ?_⟩
  · intro body q hdec hw
    exact backendSearch_collection (by rw [decodeRest_collection hdec, hw])
  · intro params q hdec hw
    exact backendSearch_collection (by rw [decodeParams_collection hdec, hw])
  · intro text limit
    exact backendSearch_collection rfl
  · exact ⟨"test", sampleResultA, sampleResultB, by decide, by decide,
      by decide⟩

/-- A concrete REST search body filtered to `docs-a`. -/
def restBodyA : Json :=
  .obj [("query", .str "test"),
    ("filters", .obj [("collection_name", .str "docs-a")])]

/-- C1 witness: the `docs-a`-filtered REST body over the sample corpus
yields only `docs-a` results (here: `sampleResultA`). -/
theorem collection_filter_all_transports_witness :
    sampleResultA.sourceCollection = "docs-a" :=
  (collection_filter_all_transports relAll sampleCorpus "docs-a").1
    restBodyA ⟨"test", some "docs-a", none, none⟩ rfl rfl
    sampleResultA (by decide)

/-- C5: a query naming a collection absent from the backend completes as a
success with an empty result set on every transport — REST answers 200
with empty `results`, the CLI pipeline returns `[]`, and the JSON-RPC
endpoint answers 200 with a `result` envelope (no `error` member) whose
`results` array is empty. -/
theorem unknown_collection_empty_success
    (rel : String → SearchResult → Bool) (corpus : List SearchResult)
    (C : String)
    (hC : C ∉ corpus.map (fun r => r.sourceCollection)) :
    (∀ body q, decodeRestSearchBody body = some q → q.collection = some C →
      restHandlePost rel corpus "/api/search" body =
        ⟨200, "application/json", encodeSearchResponse []⟩) ∧
    (∀ text limit, cliSearchResults rel corpus text (some C) limit = []) ∧
    (∀ raw env i q, parseRequest raw = some env →
      env.method = "document.search" → env.id = some i →
      decodeSearchParams env.params = some q → q.collection = some C →
      handleJsonrpcHttp (fullRegistry rel corpus) raw =
        ⟨200, "application/json",
          mkResultJson (encodeId i) (encodeSearchResponse [])⟩ ∧
      (mkResultJson (encodeId i) (encodeSearchResponse [])).hasKey "error" =
        false ∧
      (encodeSearchResponse []).lookup "results" = some (.arr [])) := by
  refine ⟨?_, ?_, ?_⟩
  · intro body q hdec hqc
    simp only [restHandlePost, hdec]
    rw [backendSearch_unknown hqc hC]
    simp
  · intro text limit
    exact backendSearch_unknown rfl hC
  · intro raw env i q hp hm hid hq hqc
    have hresolve : resolveMethod (fullRegistry rel corpus)
        "document.search" =
        some ⟨"document.search", documentSearchRun rel corpus⟩ := rfl
    have hdisp : dispatchEnv (fullRegistry rel corpus) env =
        .ok (encodeSearchResponse []) := by
      simp only [dispatchEnv, hm, hresolve, documentSearchRun, hq]
      rw [backendSearch_unknown hqc hC]
    refine ⟨?_, rfl, rfl⟩
    simp only [handleJsonrpcHttp, jsonrpcDispatchRaw, hp, hid, hdisp]
    rfl

/-- A concrete REST search body naming the absent collection `nope`. -/
def restBodyUnknown : Json :=
  .obj [("query", .str "test"),
    ("filters", .obj [("collection_name", .str "nope")])]

/-- C5 witness: the absent collection `nope` over the sample corpus. -/
theorem unknown_collection_empty_success_witness :
    restHandlePost relAll sampleCorpus "/api/search" restBodyUnknown =
      ⟨200, "application/json", encodeSearchResponse []⟩ ∧
    cliSearchResults relAll sampleCorpus "test" (some "nope") none = [] :=
  ⟨(unknown_collection_empty_success relAll sampleCorpus "nope"
      (by decide)).1 restBodyUnknown ⟨"test", some "nope", none, none⟩
      rfl rfl,
   (unknown_collection_empty_success relAll sampleCorpus "nope"
      (by decide)).2.1 "test" none⟩

/-- C3: a `POST /api/search` whose body decodes as a `SearchQuery` is a
served endpoint: the REST adapter answers 200 (never 404) with a body
binding `results` and `search_metadata`. -/
theorem rest_post_search_served
    (rel : String → SearchResult → Bool) (corpus : List SearchResult)
    (body : Json) (q : SearchQuery)
    (hq : decodeRestSearchBody body = some q) :
    restHandlePost rel corpus "/api/search" body =
      ⟨200, "application/json",
        encodeSearchResponse (backendSearch rel corpus q)⟩ ∧
    (encodeSearchResponse (backendSearch rel corpus q)).hasKey "results" =
      true ∧
    (encodeSearchResponse
        (backendSearch rel corpus q)).hasKey "search_metadata" = true ∧
    (restHandlePost rel corpus "/api/search" body).status = 200 ∧
    (restHandlePost rel corpus "/api/search" body).status ≠ 404 := by
  have h1 : restHandlePost rel corpus "/api/search" body =
      ⟨200, "application/json",
        encodeSearchResponse (backendSearch rel corpus q)⟩ := by
    simp only [restHandlePost, hq]
    simp
  refine ⟨h1, rfl, rfl, by rw [h1], ?_⟩
  rw [h1]
  show (200 : Nat) ≠ 404
  decide

/-- C3 witness: the concrete `docs-a` search body is served with 200. -/
theorem rest_post_search_served_witness :
    (restHandlePost relAll sampleCorpus "/api/search" restBodyA).status =
      200 ∧
    (restHandlePost relAll sampleCorpus "/api/search" restBodyA).status ≠
      404 :=
  ⟨(rest_post_search_served relAll sampleCorpus restBodyA
      ⟨"test", some "docs-a", none, none⟩ rfl).2.2.2.1,
   (rest_post_search_served relAll sampleCorpus restBodyA
      ⟨"test", some "docs-a", none, none⟩ rfl).2.2.2.2⟩
